import Mathlib

/-!
# Verification of `media-gallery.js` (attachpart.com)

Shallow embedding of the media-gallery component: the audio controller
(single-audio-source policy), the video resource manager (lazy load /
eviction / fetch failure handling), the photo interaction state machine
(normal/hover/clicked, drag sessions, put-down drift, viewport
constraint), and the asset descriptor parser.

DOM reads (element sizes, offset-chain positions, window size, pointer
coordinates) and the random jitter values drawn by `randomInRange` are
modelled as explicit parameters.  Asynchronous continuations (animation
frame fade ticks, fetch resolution) are modelled as constructors of a
small-step relation; the synchronous body of each JS function is a Lean
function on the model state.
-/

/-- JS truthiness for a `dataset` / object field holding a string:
`undefined` and `""` are falsy, every other string truthy. -/
def jsFalsyStr (o : Option String) : Bool :=
  match o with
  | none => true
  | some s => s == ""

/-- JS `a || b` on optional strings. -/
def jsOr (a b : Option String) : Option String :=
  if jsFalsyStr a then b else a

@[simp] theorem jsFalsyStr_none : jsFalsyStr none = true := rfl

@[simp] theorem jsFalsyStr_some (s : String) : jsFalsyStr (some s) = (s == "") := rfl

@[simp] theorem jsOr_none_left (b : Option String) : jsOr none b = b := rfl

/-! ## Audio Controller (`media-gallery.js` lines 72-161)

One `AudioVideo` per video element: its `muted` flag and `volume`.
`fadeInAudio` (lines 75-87) synchronously sets `volume = 0`,
`muted = false` and schedules a fade-in task; `fadeOutAudio`
(lines 89-112) either mutes immediately (when `volume === 0`) or
schedules a fade-out task that sets `muted = true`, `volume = 1` when
its last tick fires.  The `fadingIn` / `fadingOut` flags record the
scheduled tasks; `AStep.tickIn` / `AStep.completeIn` /
`AStep.tickOut` / `AStep.completeOut` are the animation-frame
continuations.  `updateUI` / `updateToggleIcon` only touch icon and
glow presentation and are not modelled. -/

structure AudioVideo where
  muted : Bool
  volume : ℚ
deriving DecidableEq

structure AudioSt (n : ℕ) where
  vids : Fin n → AudioVideo
  activeVideo : Option (Fin n)
  fadingIn : Fin n → Bool
  fadingOut : Fin n → Bool

/-- `fadeInAudio(video)` (lines 75-87): `video.volume = 0;
video.muted = false;` then schedule the fade-in tick loop. -/
def fadeInAudio {n : ℕ} (v : Fin n) (s : AudioSt n) : AudioSt n :=
  { s with
      vids := Function.update s.vids v { muted := false, volume := 0 },
      fadingIn := Function.update s.fadingIn v true }

/-- Synchronous part of `fadeOutAudio(video, duration, callback)`
(lines 89-112): if `startVolume === 0` mute immediately (the callback
only refreshes UI), otherwise schedule the fade-out tick loop. -/
def fadeOutAudio {n : ℕ} (v : Fin n) (s : AudioSt n) : AudioSt n :=
  if (s.vids v).volume = 0 then
    { s with vids := Function.update s.vids v { s.vids v with muted := true } }
  else
    { s with fadingOut := Function.update s.fadingOut v true }

/-- `setAudioActive(video)` (lines 118-130): fade out the previous
active video if it is a different one, record the new active video,
fade the new one in. -/
def setAudioActive {n : ℕ} (v : Fin n) (s : AudioSt n) : AudioSt n :=
  let s1 :=
    match s.activeVideo with
    | some prev => if prev ≠ v then fadeOutAudio prev s else s
    | none => s
  fadeInAudio v { s1 with activeVideo := some v }

/-- `setAudioInactive(video)` (lines 132-140). -/
def setAudioInactive {n : ℕ} (v : Fin n) (s : AudioSt n) : AudioSt n :=
  let s1 := fadeOutAudio v s
  if s1.activeVideo = some v then { s1 with activeVideo := none } else s1

/-- `toggleAudio(video)` (lines 142-148). -/
def toggleAudio {n : ℕ} (v : Fin n) (s : AudioSt n) : AudioSt n :=
  if (s.vids v).muted then setAudioActive v s else setAudioInactive v s

/-- Small-step relation of the audio controller: any public operation
may be invoked, and any scheduled fade task may tick or complete. -/
inductive AStep (n : ℕ) : AudioSt n → AudioSt n → Prop where
  | active (v : Fin n) (s : AudioSt n) : AStep n s (setAudioActive v s)
  | inactive (v : Fin n) (s : AudioSt n) : AStep n s (setAudioInactive v s)
  | toggle (v : Fin n) (s : AudioSt n) : AStep n s (toggleAudio v s)
  | tickIn (v : Fin n) (s : AudioSt n) (p : ℚ) (h : s.fadingIn v = true)
      (h0 : 0 < p) (h1 : p < 1) :
      AStep n s { s with vids := Function.update s.vids v { s.vids v with volume := p } }
  | completeIn (v : Fin n) (s : AudioSt n) (h : s.fadingIn v = true) :
      AStep n s { s with
        vids := Function.update s.vids v { s.vids v with volume := 1 },
        fadingIn := Function.update s.fadingIn v false }
  | tickOut (v : Fin n) (s : AudioSt n) (p : ℚ) (h : s.fadingOut v = true)
      (h0 : 0 < p) (h1 : p < 1) :
      AStep n s { s with vids := Function.update s.vids v { s.vids v with volume := p } }
  | completeOut (v : Fin n) (s : AudioSt n) (h : s.fadingOut v = true) :
      AStep n s { s with
        vids := Function.update s.vids v { muted := true, volume := 1 },
        fadingOut := Function.update s.fadingOut v false }

/-- Reachability for the audio controller. -/
def AReach (n : ℕ) : AudioSt n → AudioSt n → Prop :=
  Relation.ReflTransGen (AStep n)

/-- Initial audio state: every `<video>` is created with
`video.muted = true` (line 782) and the media-element default
`volume = 1`; `activeVideo` starts as `null` (line 73). -/
def audioInit (n : ℕ) : AudioSt n :=
  { vids := fun _ => { muted := true, volume := 1 },
    activeVideo := none,
    fadingIn := fun _ => false,
    fadingOut := fun _ => false }

/-- The single-audio-source predicate of the claim: at most one video
has `muted = false`. -/
def atMostOneUnmuted {n : ℕ} (s : AudioSt n) : Prop :=
  ∀ v w : Fin n, (s.vids v).muted = false → (s.vids w).muted = false → v = w

instance {n : ℕ} (s : AudioSt n) : Decidable (atMostOneUnmuted s) := by
  unfold atMostOneUnmuted; infer_instance

/-- Invariant of the audio controller: every unmuted video is either
the `activeVideo` or has a pending fade-out task (which will mute it
when it completes). -/
def AudioInv {n : ℕ} (s : AudioSt n) : Prop :=
  ∀ v, (s.vids v).muted = false → s.activeVideo = some v ∨ s.fadingOut v = true

theorem setAudioActive_activeVideo {n : ℕ} (v : Fin n) (s : AudioSt n) :
    (setAudioActive v s).activeVideo = some v := rfl

theorem fadeOutAudio_activeVideo {n : ℕ} (v : Fin n) (s : AudioSt n) :
    (fadeOutAudio v s).activeVideo = s.activeVideo := by
  unfold fadeOutAudio; split_ifs <;> rfl

theorem fadeOutAudio_fadingOut_self {n : ℕ} (v : Fin n) (s : AudioSt n)
    (hv : ¬ (s.vids v).volume = 0) :
    (fadeOutAudio v s).fadingOut v = true := by
  unfold fadeOutAudio
  rw [if_neg hv]
  simp [Function.update_apply]

theorem fadeOutAudio_muted_self {n : ℕ} (v : Fin n) (s : AudioSt n)
    (hv : (s.vids v).volume = 0) :
    ((fadeOutAudio v s).vids v).muted = true := by
  unfold fadeOutAudio
  rw [if_pos hv]
  simp [Function.update_apply]

theorem fadeOutAudio_preserves {n : ℕ} (v w : Fin n) (s : AudioSt n)
    (h : AudioInv s) (hw : ((fadeOutAudio v s).vids w).muted = false) :
    s.activeVideo = some w ∨ (fadeOutAudio v s).fadingOut w = true := by
  unfold fadeOutAudio at hw ⊢
  split_ifs at hw ⊢ with hvol
  · -- immediate-mute branch: `fadingOut` unchanged, `muted v := true`
    by_cases hwv : w = v
    · subst hwv; simp [Function.update_apply] at hw
    · simp only [Function.update_apply, if_neg hwv] at hw
      exact h w hw
  · -- scheduled-fade branch: `vids` unchanged, `fadingOut v := true`
    by_cases hwv : w = v
    · subst hwv; right; simp [Function.update_apply]
    · rcases h w hw with hc | hc
      · exact Or.inl hc
      · right; simp [Function.update_apply, if_neg hwv, hc]

theorem audioInv_setAudioActive {n : ℕ} (v : Fin n) (s : AudioSt n)
    (h : AudioInv s) : AudioInv (setAudioActive v s) := by
  intro w hw
  by_cases hwv : w = v
  · subst hwv; exact Or.inl (setAudioActive_activeVideo w s)
  · unfold setAudioActive fadeInAudio at hw ⊢
    simp only [Function.update_apply, if_neg hwv] at hw ⊢
    rcases hA : s.activeVideo with _ | prev
    · simp only [hA] at hw ⊢
      rcases h w hw with hc | hc
      · rw [hA] at hc; cases hc
      · exact Or.inr hc
    · simp only [hA] at hw ⊢
      by_cases hpv : prev ≠ v
      · rw [if_pos hpv] at hw ⊢
        rcases fadeOutAudio_preserves prev w s h hw with hc | hc
        · -- w is the previously active video: its fade-out is pending
          rw [hA] at hc
          injection hc with hc
          rw [← hc] at hw ⊢
          by_cases hvol : (s.vids prev).volume = 0
          · rw [fadeOutAudio_muted_self prev s hvol] at hw
            cases hw
          · exact Or.inr (fadeOutAudio_fadingOut_self prev s hvol)
        · exact Or.inr hc
      · rw [if_neg hpv] at hw ⊢
        rcases h w hw with hc | hc
        · rw [hA] at hc
          injection hc with hc
          rw [not_not] at hpv
          exact absurd (hc.symm.trans hpv) hwv
        · exact Or.inr hc

theorem audioInv_setAudioInactive {n : ℕ} (v : Fin n) (s : AudioSt n)
    (h : AudioInv s) : AudioInv (setAudioInactive v s) := by
  intro w hw
  dsimp only [setAudioInactive] at hw ⊢
  split_ifs at hw ⊢ with hact
  · -- active reference cleared: result.activeVideo = none
    have hw' : ((fadeOutAudio v s).vids w).muted = false := hw
    rcases fadeOutAudio_preserves v w s h hw' with hc | hc
    · right
      rw [fadeOutAudio_activeVideo] at hact
      rw [hact] at hc
      injection hc with hc
      rw [← hc] at hw' ⊢
      have hvol : ¬ (s.vids v).volume = 0 := by
        intro h0
        rw [fadeOutAudio_muted_self v s h0] at hw'
        cases hw'
      exact fadeOutAudio_fadingOut_self v s hvol
    · exact Or.inr hc
  · rcases fadeOutAudio_preserves v w s h hw with hc | hc
    · rw [fadeOutAudio_activeVideo]; exact Or.inl hc
    · exact Or.inr hc

theorem audioInv_preserved {n : ℕ} {s t : AudioSt n} (hs : AStep n s t)
    (h : AudioInv s) : AudioInv t := by
  cases hs with
  | active v s => exact audioInv_setAudioActive v s h
  | inactive v s => exact audioInv_setAudioInactive v s h
  | toggle v s =>
    unfold toggleAudio
    split_ifs
    · exact audioInv_setAudioActive v s h
    · exact audioInv_setAudioInactive v s h
  | tickIn v s p hf h0 h1 =>
    intro w hw
    have hw' : (s.vids w).muted = false := by
      by_cases hwv : w = v
      · subst hwv; simpa [Function.update_apply] using hw
      · simpa [Function.update_apply, hwv] using hw
    exact h w hw'
  | completeIn v s hf =>
    intro w hw
    have hw' : (s.vids w).muted = false := by
      by_cases hwv : w = v
      · subst hwv; simpa [Function.update_apply] using hw
      · simpa [Function.update_apply, hwv] using hw
    exact h w hw'
  | tickOut v s p hf h0 h1 =>
    intro w hw
    have hw' : (s.vids w).muted = false := by
      by_cases hwv : w = v
      · subst hwv; simpa [Function.update_apply] using hw
      · simpa [Function.update_apply, hwv] using hw
    exact h w hw'
  | completeOut v s hf =>
    intro w hw
    by_cases hwv : w = v
    · exfalso
      rw [hwv] at hw
      simp [Function.update_apply] at hw
    · have hw' : (s.vids w).muted = false := by
        simpa [Function.update_apply, hwv] using hw
      rcases h w hw' with hc | hc
      · exact Or.inl hc
      · right; simp [Function.update_apply, hwv, hc]

theorem audioInv_reach {n : ℕ} {s : AudioSt n}
    (h : AReach n (audioInit n) s) : AudioInv s := by
  induction h with
  | refl => intro v hv; simp [audioInit] at hv
  | tail h1 h2 ih => exact audioInv_preserved h2 ih

theorem setAudioActive_of_active {n : ℕ} (v : Fin n) (t : AudioSt n)
    (h : t.activeVideo = some v) :
    setAudioActive v t = fadeInAudio v { t with activeVideo := some v } := by
  unfold setAudioActive
  rw [h]
  simp

theorem setAudioActive_idem {n : ℕ} (v : Fin n) (s : AudioSt n) :
    setAudioActive v (setAudioActive v s) = setAudioActive v s := by
  rw [setAudioActive_of_active v (setAudioActive v s) (setAudioActive_activeVideo v s)]
  unfold setAudioActive fadeInAudio
  simp [Function.update_idem]

theorem setAudioInactive_activeVideo_ne {n : ℕ} (v : Fin n) (s : AudioSt n) :
    ¬ (setAudioInactive v s).activeVideo = some v := by
  dsimp only [setAudioInactive]
  split_ifs with h
  · simp
  · exact h

theorem setAudioInactive_vids {n : ℕ} (v : Fin n) (s : AudioSt n) :
    (setAudioInactive v s).vids = (fadeOutAudio v s).vids := by
  dsimp only [setAudioInactive]
  split_ifs <;> rfl

theorem setAudioInactive_fadingOut {n : ℕ} (v : Fin n) (s : AudioSt n) :
    (setAudioInactive v s).fadingOut = (fadeOutAudio v s).fadingOut := by
  dsimp only [setAudioInactive]
  split_ifs <;> rfl

/-- A state already "faded out at `v`" is a fixed point of `fadeOutAudio v`. -/
theorem fadeOutAudio_stable {n : ℕ} (v : Fin n) (t : AudioSt n)
    (h : ((t.vids v).volume = 0 → (t.vids v).muted = true) ∧
         (¬ (t.vids v).volume = 0 → t.fadingOut v = true)) :
    fadeOutAudio v t = t := by
  unfold fadeOutAudio
  split_ifs with hv
  · have hm := h.1 hv
    have hvv : ({ t.vids v with muted := true } : AudioVideo) = t.vids v := by
      rw [← hm]
    rw [hvv, Function.update_eq_self]
  · have hf := h.2 hv
    have hff : Function.update t.fadingOut v true = t.fadingOut := by
      rw [← hf, Function.update_eq_self]
    rw [hff]

theorem fadeOutAudio_post {n : ℕ} (v : Fin n) (s : AudioSt n) :
    (((fadeOutAudio v s).vids v).volume = 0 → ((fadeOutAudio v s).vids v).muted = true) ∧
    (¬ ((fadeOutAudio v s).vids v).volume = 0 → (fadeOutAudio v s).fadingOut v = true) := by
  unfold fadeOutAudio
  split_ifs with hv
  · constructor
    · intro _; simp [Function.update_apply]
    · intro hcon
      simp [Function.update_apply, hv] at hcon
  · constructor
    · intro hcon; exact absurd hcon hv
    · intro _; simp [Function.update_apply]

theorem setAudioInactive_of {n : ℕ} (v : Fin n) (t : AudioSt n)
    (hne : ¬ t.activeVideo = some v) (hst : fadeOutAudio v t = t) :
    setAudioInactive v t = t := by
  dsimp only [setAudioInactive]
  rw [hst, if_neg hne]

theorem setAudioInactive_idem {n : ℕ} (v : Fin n) (s : AudioSt n) :
    setAudioInactive v (setAudioInactive v s) = setAudioInactive v s := by
  refine setAudioInactive_of v _ (setAudioInactive_activeVideo_ne v s) ?_
  apply fadeOutAudio_stable
  rw [setAudioInactive_vids, setAudioInactive_fadingOut]
  exact fadeOutAudio_post v s

/-! Concrete two-video scenario: activate video 0, let its fade-in
complete, then activate video 1 while 0 is still unmuted. -/

/-- State after `setAudioActive(0)` from the initial state. -/
def audioA : AudioSt 2 := setAudioActive 0 (audioInit 2)

/-- State after video 0's fade-in completes (`AStep.completeIn`). -/
def audioB : AudioSt 2 :=
  { audioA with
      vids := Function.update audioA.vids 0 { audioA.vids 0 with volume := 1 },
      fadingIn := Function.update audioA.fadingIn 0 false }

/-- State after `setAudioActive(1)` while video 0 is active: video 0's
fade-out is pending and both videos are unmuted. -/
def audioC : AudioSt 2 := setAudioActive 1 audioB

/-- State after video 0's fade-out completes (`AStep.completeOut`). -/
def audioD : AudioSt 2 :=
  { audioC with
      vids := Function.update audioC.vids 0 { muted := true, volume := 1 },
      fadingOut := Function.update audioC.fadingOut 0 false }

theorem audioReach_B : AReach 2 (audioInit 2) audioB :=
  (Relation.ReflTransGen.refl.tail (AStep.active 0 (audioInit 2))).tail
    (AStep.completeIn 0 audioA (by decide))

theorem audioReach_C : AReach 2 (audioInit 2) audioC :=
  audioReach_B.tail (AStep.active 1 audioB)

theorem audioReach_D : AReach 2 (audioInit 2) audioD :=
  audioReach_C.tail (AStep.completeOut 0 audioC (by decide))

/-- C1 (counterexample): the single-audio-source invariant does *not*
hold at every instant during an in-progress fade.  After
`setAudioActive(0)`, fade-in completion, then `setAudioActive(1)`,
video 0 is still unmuted (its fade-out only mutes it when it
completes) while video 1 was unmuted immediately — two videos have
`muted = false` in the reachable state `audioC`. -/
theorem c1_counterexample :
    ¬ (∀ s : AudioSt 2, AReach 2 (audioInit 2) s → atMostOneUnmuted s) := by
  intro h
  exact absurd (h audioC audioReach_C) (by decide)

/-- C1 (amended): in every reachable audio-controller state with no
fade-out in progress, at most one video has `muted = false`; moreover
in the two-video scenario, once video 0's fade-out completes
(`audioD`), video 0 is muted and video 1 is the sole active audio
reference. -/
theorem c1_quiescent_single_audio (n : ℕ) (s : AudioSt n)
    (h : AReach n (audioInit n) s) (hq : ∀ v, s.fadingOut v = false) :
    atMostOneUnmuted s ∧
      ((audioD.vids 0).muted = true ∧ audioD.activeVideo = some 1 ∧
        (audioD.vids 1).muted = false ∧ atMostOneUnmuted audioD ∧
        AReach 2 (audioInit 2) audioD) := by
  constructor
  · intro v w hv hw
    have hI := audioInv_reach h
    rcases hI v hv with hc1 | hc1
    · rcases hI w hw with hc2 | hc2
      · rw [hc1] at hc2
        exact Option.some.inj hc2
      · rw [hq w] at hc2; cases hc2
    · rw [hq v] at hc1; cases hc1
  · exact ⟨by decide, by decide, by decide, by decide, audioReach_D⟩

/-- C1 (witness): the amended theorem applied to the reachable
quiescent state `audioB` (video 0 active, no fades pending). -/
theorem c1_quiescent_single_audio_witness :
    atMostOneUnmuted audioB ∧
      ((audioD.vids 0).muted = true ∧ audioD.activeVideo = some 1 ∧
        (audioD.vids 1).muted = false ∧ atMostOneUnmuted audioD ∧
        AReach 2 (audioInit 2) audioD) :=
  c1_quiescent_single_audio 2 audioB audioReach_B (by decide)

/-- C5 (counterexample): `toggleAudio` is *not* idempotent.  From the
initial one-video state, one toggle unmutes video 0 while a second
toggle mutes it again (its volume is still 0, so `fadeOutAudio` mutes
immediately). -/
theorem c5_counterexample :
    ¬ (∀ (v : Fin 1) (s : AudioSt 1),
        toggleAudio v (toggleAudio v s) = toggleAudio v s) := by
  intro h
  have h2 := congrArg (fun st => (st.vids 0).muted) (h 0 (audioInit 1))
  have hl : ((toggleAudio 0 (toggleAudio 0 (audioInit 1))).vids 0).muted = true := by
    decide
  have hr : ((toggleAudio 0 (audioInit 1)).vids 0).muted = false := by decide
  simp only at h2
  rw [hl, hr] at h2
  cases h2

/-- C5 (amended): `setAudioActive` and `setAudioInactive` are
idempotent — calling either twice in succession with the same video
leaves the controller in the same state as calling it once;
`toggleAudio` is not (see the counterexample). -/
theorem c5_activate_deactivate_idempotent (n : ℕ) (v : Fin n) (s : AudioSt n) :
    setAudioActive v (setAudioActive v s) = setAudioActive v s ∧
    setAudioInactive v (setAudioInactive v s) = setAudioInactive v s :=
  ⟨setAudioActive_idem v s, setAudioInactive_idem v s⟩

/-! ## Video Resource Manager (`media-gallery.js` lines 170-364)

Global state: the `loadedVideos` Set (line 170) and the keys of the
`pendingFetches` Map (line 171), both modelled as insertion-ordered
duplicate-free lists (JS `Set`/`Map` iteration order); per-element
state: the `data-lazy-src` / `data-video-src` dataset attributes, the
`src` attribute (a fetched video holds a `blob:` URL), the `muted`
flag (written only by the audio controller), the paused/playing flag,
whether the element sits inside a `.pg-photo` container, and the text
of the `.pg-loading-bar` progress indicator (`none` = no bar).

`loadVideo` is modelled up to and including starting the fetch; the
fetch resolution / rejection handlers (lines 264-309) are the
`LStep.success` / `LStep.fail` steps, enabled while the fetch is
pending.  `URL.createObjectURL`, `video.load()` buffer management and
the preview/display toggling are presentation-level and not part of
the modelled state. -/

structure VideoEl where
  lazySrc : Option String
  videoSrc : Option String
  src : Option String
  muted : Bool
  playing : Bool
  hasPhoto : Bool
  loadingBar : Option String
deriving DecidableEq

structure LoadState (n : ℕ) where
  els : Fin n → VideoEl
  loadedVideos : List (Fin n)
  pendingFetches : List (Fin n)

/-- JS `Set.add` / `Map.set` on the tracked keys: appends unless
already present. -/
def jsSetAdd {α : Type} [DecidableEq α] (l : List α) (a : α) : List α :=
  if a ∈ l then l else l ++ [a]

/-- JS `video.src && video.src.startsWith('blob:')` (line 215); a
removed `src` attribute reads back as the falsy empty string. -/
def jsStartsWithBlob (o : Option String) : Bool :=
  match o with
  | none => false
  | some s => s.startsWith "blob:"

/-- `unloadVideo(video)` (lines 312-358): no-op when audio is active;
otherwise abort any pending fetch, pause, clear the `src` attribute,
drop the video from `loadedVideos`, restore the lazy-source marker
from `data-video-src`, and remove the loading bar (the preview/display
restoration is presentational). -/
def unloadVideo {n : ℕ} (v : Fin n) (s : LoadState n) : LoadState n :=
  if (s.els v).muted = false then s
  else
    { els := Function.update s.els v
        { s.els v with
            playing := false,
            src := none,
            lazySrc := if jsFalsyStr (s.els v).videoSrc then (s.els v).lazySrc
                       else (s.els v).videoSrc,
            loadingBar := if (s.els v).hasPhoto then none else (s.els v).loadingBar },
      loadedVideos := s.loadedVideos.erase v,
      pendingFetches := s.pendingFetches.erase v }

/-- `unloadAllVideosExcept(keepVideo)` (lines 360-364):
`[...loadedVideos].filter(v => v !== keepVideo).forEach(unloadVideo)`. -/
def unloadAllVideosExcept {n : ℕ} (keep : Fin n) (s : LoadState n) : LoadState n :=
  (s.loadedVideos.filter (fun w => w != keep)).foldl (fun st w => unloadVideo w st) s

/-- Stage of `loadVideo` after line 209
(`video.dataset.videoSrc = src`): the resolved source is recorded in
`data-video-src`. -/
def srcStage {n : ℕ} (v : Fin n) (s : LoadState n) : LoadState n :=
  { s with els := Function.update s.els v { s.els v with videoSrc := jsOr (s.els v).lazySrc (s.els v).videoSrc } }

/-- Synchronous body of `loadVideo(video)` (lines 200-239), up to and
including starting the fetch: resolve the source (early return when
absent), record it in `data-video-src` (`srcStage`), evict all other
loaded videos, short-circuit to playback when a blob is already
loaded, cancel any pending fetch for this video, create the progress
bar (`"0 KB"`; `createLoadingBar` keeps an existing bar's text), and
register the new fetch. -/
def loadVideo {n : ℕ} (v : Fin n) (s : LoadState n) : LoadState n :=
  let src := jsOr (s.els v).lazySrc (s.els v).videoSrc
  if jsFalsyStr src then s
  else
    let s2 := unloadAllVideosExcept v (srcStage v s)
    if jsStartsWithBlob ((s2.els v).src) then
      { s2 with els := Function.update s2.els v { s2.els v with playing := true } }
    else
      let s3 : LoadState n := { s2 with pendingFetches := s2.pendingFetches.erase v }
      let bar := if (s3.els v).hasPhoto then some (((s3.els v).loadingBar).getD "0 KB")
                 else (s3.els v).loadingBar
      let s4 : LoadState n :=
        { s3 with els := Function.update s3.els v { s3.els v with loadingBar := bar } }
      { s4 with pendingFetches := jsSetAdd s4.pendingFetches v }

/-- Fetch resolution handler (lines 264-285): drop the pending fetch,
assign the blob URL, start playback, add to `loadedVideos`, delete the
lazy-source marker.  (`b` abstracts the browser-generated object-URL
suffix; the `canplay` listener only removes the loading bar and sizes
the container.) -/
def fetchSuccess {n : ℕ} (v : Fin n) (b : String) (s : LoadState n) : LoadState n :=
  { els := Function.update s.els v
      { s.els v with
          src := some ("blob:" ++ b),
          playing := true,
          lazySrc := none },
    loadedVideos := jsSetAdd s.loadedVideos v,
    pendingFetches := s.pendingFetches.erase v }

/-- Fetch rejection handler for a non-abort error (lines 286-309):
drop the pending fetch, show `Error: <message>` in the loading bar
(when the video sits in a gallery photo), and restore the lazy-source
marker from `data-video-src` so a later `loadVideo` retries. -/
def fetchFail {n : ℕ} (v : Fin n) (msg : String) (s : LoadState n) : LoadState n :=
  { s with
      pendingFetches := s.pendingFetches.erase v,
      els := Function.update s.els v
        { s.els v with
            loadingBar := if (s.els v).hasPhoto then some ("Error: " ++ msg)
                          else (s.els v).loadingBar,
            lazySrc := if jsFalsyStr (s.els v).videoSrc then (s.els v).lazySrc
                       else (s.els v).videoSrc } }

/-- Small-step relation of the video resource manager: `loadVideo` /
`unloadVideo` may be invoked at any time; a fetch may resolve or
reject while it is pending. -/
inductive LStep (n : ℕ) : LoadState n → LoadState n → Prop where
  | load (v : Fin n) (s : LoadState n) : LStep n s (loadVideo v s)
  | unload (v : Fin n) (s : LoadState n) : LStep n s (unloadVideo v s)
  | success (v : Fin n) (b : String) (s : LoadState n)
      (h : v ∈ s.pendingFetches) : LStep n s (fetchSuccess v b s)
  | fail (v : Fin n) (msg : String) (s : LoadState n)
      (h : v ∈ s.pendingFetches) : LStep n s (fetchFail v msg s)

/-- Reachability for the video resource manager. -/
def LReach (n : ℕ) : LoadState n → LoadState n → Prop :=
  Relation.ReflTransGen (LStep n)

/-- Two muted, unloaded lazy videos (e.g. two hero videos before they
enter the viewport). -/
def loadInit2 : LoadState 2 :=
  { els := fun v =>
      { lazySrc := some (if v = 0 then "a/video.mp4" else "b/video.mp4"),
        videoSrc := none, src := none, muted := true, playing := false,
        hasPhoto := true, loadingBar := none },
    loadedVideos := [],
    pendingFetches := [] }

/-- The at-most-one-loaded-or-fetching-unless-unmuted predicate of the
claim. -/
def atMostOneLoadedUnlessAudio {n : ℕ} (s : LoadState n) : Prop :=
  ∀ v w : Fin n,
    (v ∈ s.loadedVideos ∨ v ∈ s.pendingFetches) →
    (w ∈ s.loadedVideos ∨ w ∈ s.pendingFetches) →
    (s.els v).muted = true → (s.els w).muted = true → v = w

instance {n : ℕ} (s : LoadState n) : Decidable (atMostOneLoadedUnlessAudio s) := by
  unfold atMostOneLoadedUnlessAudio; infer_instance

/-- Overlapping-fetch scenario: `loadVideo(0)` then `loadVideo(1)`
before either fetch resolves, then both fetches resolve. -/
def loadBad : LoadState 2 :=
  fetchSuccess 1 "v2" (fetchSuccess 0 "v1" (loadVideo 1 (loadVideo 0 loadInit2)))

theorem loadReach_bad : LReach 2 loadInit2 loadBad :=
  ((((Relation.ReflTransGen.refl.tail (LStep.load 0 loadInit2)).tail
      (LStep.load 1 (loadVideo 0 loadInit2))).tail
      (LStep.success 0 "v1" (loadVideo 1 (loadVideo 0 loadInit2)) (by decide))).tail
      (LStep.success 1 "v2" (fetchSuccess 0 "v1" (loadVideo 1 (loadVideo 0 loadInit2)))
        (by decide)))

theorem unloadVideo_els_muted {n : ℕ} (w u : Fin n) (s : LoadState n) :
    ((unloadVideo w s).els u).muted = (s.els u).muted := by
  unfold unloadVideo
  by_cases h : (s.els w).muted = false
  · rw [if_pos h]
  · rw [if_neg h]
    by_cases huw : u = w
    · subst huw; simp [Function.update_apply]
    · simp [Function.update_apply, huw]

theorem unloadVideo_els_ne {n : ℕ} (w u : Fin n) (s : LoadState n) (h : u ≠ w) :
    (unloadVideo w s).els u = s.els u := by
  unfold unloadVideo
  by_cases hm : (s.els w).muted = false
  · rw [if_pos hm]
  · rw [if_neg hm]
    simp [Function.update_apply, h]

theorem unloadVideo_loaded_sub {n : ℕ} (w u : Fin n) (s : LoadState n)
    (h : u ∈ (unloadVideo w s).loadedVideos) : u ∈ s.loadedVideos := by
  unfold unloadVideo at h
  by_cases hm : (s.els w).muted = false
  · rw [if_pos hm] at h; exact h
  · rw [if_neg hm] at h; exact List.mem_of_mem_erase h

theorem unloadVideo_loaded_nodup {n : ℕ} (w : Fin n) (s : LoadState n)
    (h : s.loadedVideos.Nodup) : (unloadVideo w s).loadedVideos.Nodup := by
  unfold unloadVideo
  by_cases hm : (s.els w).muted = false
  · rw [if_pos hm]; exact h
  · rw [if_neg hm]; exact h.erase w

theorem unloadVideo_not_mem {n : ℕ} (w : Fin n) (s : LoadState n)
    (hnd : s.loadedVideos.Nodup) (hm : (s.els w).muted = true) :
    w ∉ (unloadVideo w s).loadedVideos := by
  unfold unloadVideo
  rw [if_neg (by rw [hm]; simp)]
  exact hnd.not_mem_erase

theorem unloadVideo_unmuted_eq {n : ℕ} (w : Fin n) (s : LoadState n)
    (h : (s.els w).muted = false) : unloadVideo w s = s := by
  unfold unloadVideo
  rw [if_pos h]

theorem fold_unload_els_muted {n : ℕ} (L : List (Fin n)) (s : LoadState n) (u : Fin n) :
    ((L.foldl (fun st w => unloadVideo w st) s).els u).muted = (s.els u).muted := by
  induction L generalizing s with
  | nil => rfl
  | cons a L ih => rw [List.foldl_cons, ih, unloadVideo_els_muted]

theorem fold_unload_loaded_sub {n : ℕ} (L : List (Fin n)) (s : LoadState n) (u : Fin n)
    (h : u ∈ (L.foldl (fun st w => unloadVideo w st) s).loadedVideos) :
    u ∈ s.loadedVideos := by
  induction L generalizing s with
  | nil => exact h
  | cons a L ih =>
    rw [List.foldl_cons] at h
    exact unloadVideo_loaded_sub a u s (ih _ h)

theorem fold_unload_nodup {n : ℕ} (L : List (Fin n)) (s : LoadState n)
    (h : s.loadedVideos.Nodup) :
    ((L.foldl (fun st w => unloadVideo w st) s).loadedVideos).Nodup := by
  induction L generalizing s with
  | nil => exact h
  | cons a L ih =>
    rw [List.foldl_cons]
    exact ih _ (unloadVideo_loaded_nodup a s h)

theorem fold_unload_evict {n : ℕ} (L : List (Fin n)) (s : LoadState n) (u : Fin n)
    (hnd : s.loadedVideos.Nodup) (hu : u ∈ L) (hm : (s.els u).muted = true) :
    u ∉ (L.foldl (fun st w => unloadVideo w st) s).loadedVideos := by
  induction L generalizing s with
  | nil => cases hu
  | cons a L ih =>
    rw [List.foldl_cons]
    rcases List.mem_cons.mp hu with rfl | hu2
    · intro hc
      exact unloadVideo_not_mem u s hnd hm (fold_unload_loaded_sub L _ u hc)
    · exact ih (unloadVideo a s) (unloadVideo_loaded_nodup a s hnd) hu2
        (by rw [unloadVideo_els_muted]; exact hm)

theorem fold_unload_keep {n : ℕ} (L : List (Fin n)) (s : LoadState n) (u : Fin n)
    (hm : (s.els u).muted = false) :
    ((L.foldl (fun st w => unloadVideo w st) s).els u = s.els u) ∧
      ((u ∈ (L.foldl (fun st w => unloadVideo w st) s).loadedVideos) ↔
        u ∈ s.loadedVideos) := by
  induction L generalizing s with
  | nil => exact ⟨rfl, Iff.rfl⟩
  | cons a L ih =>
    rw [List.foldl_cons]
    by_cases hau : a = u
    · subst hau
      rw [unloadVideo_unmuted_eq a s hm]
      exact ih s hm
    · have h1 : (unloadVideo a s).els u = s.els u :=
        unloadVideo_els_ne a u s (fun hc => hau hc.symm)
      have h2 : ((unloadVideo a s).els u).muted = false := by rw [h1]; exact hm
      obtain ⟨e1, e2⟩ := ih (unloadVideo a s) h2
      refine ⟨e1.trans h1, e2.trans ?_⟩
      unfold unloadVideo
      by_cases hma : (s.els a).muted = false
      · rw [if_pos hma]
      · rw [if_neg hma]
        exact List.mem_erase_of_ne (fun hc => hau hc.symm)

theorem fold_unload_els_notmem {n : ℕ} (L : List (Fin n)) (s : LoadState n) (u : Fin n)
    (hu : u ∉ L) :
    (L.foldl (fun st w => unloadVideo w st) s).els u = s.els u := by
  induction L generalizing s with
  | nil => rfl
  | cons a L ih =>
    rw [List.foldl_cons, ih _ (fun hc => hu (List.mem_cons_of_mem a hc))]
    exact unloadVideo_els_ne a u s (fun hc => hu (hc ▸ List.mem_cons_self a L))

/-- C2 (counterexample): the at-most-one-loaded-or-fetching invariant
fails under overlapping fetches.  `loadVideo(0)` then `loadVideo(1)`
(before either fetch resolves) starts two concurrent fetches — the
eviction pass only walks `loadedVideos`, which is still empty — and
when both fetches resolve, `loadedVideos` holds two muted videos. -/
theorem c2_counterexample :
    ¬ (∀ s : LoadState 2, LReach 2 loadInit2 s → atMostOneLoadedUnlessAudio s) := by
  intro h
  exact absurd (h loadBad loadReach_bad) (by decide)

/-- C2 (amended, part of the claim that does hold): a `loadVideo(v)`
call with a resolvable source evicts every other currently-loaded
video before fetching or playing, skipping exactly the audio-active
ones: afterwards every loaded video other than `v` is unmuted, every
other unmuted loaded video is kept untouched, and every other muted
loaded video is gone.  (`loadedVideos` mirrors a JS `Set`, hence the
no-duplicates hypothesis.) -/
theorem srcStage_els_ne {n : ℕ} (v w : Fin n) (s : LoadState n) (h : w ≠ v) :
    (srcStage v s).els w = s.els w := by
  simp [srcStage, Function.update_apply, h]

theorem srcStage_els_muted {n : ℕ} (v w : Fin n) (s : LoadState n) :
    ((srcStage v s).els w).muted = (s.els w).muted := by
  by_cases h : w = v
  · subst h; simp [srcStage, Function.update_apply]
  · simp [srcStage, Function.update_apply, h]

theorem srcStage_loaded {n : ℕ} (v : Fin n) (s : LoadState n) :
    (srcStage v s).loadedVideos = s.loadedVideos := rfl

theorem srcStage_els_src {n : ℕ} (v : Fin n) (s : LoadState n) :
    ((srcStage v s).els v).src = (s.els v).src := by
  simp [srcStage, Function.update_apply]

theorem loadVideo_loaded_eq {n : ℕ} (v : Fin n) (s : LoadState n)
    (hsrc : jsFalsyStr (jsOr (s.els v).lazySrc (s.els v).videoSrc) = false) :
    (loadVideo v s).loadedVideos
      = (unloadAllVideosExcept v (srcStage v s)).loadedVideos := by
  dsimp only [loadVideo]
  rw [hsrc, if_neg Bool.false_ne_true,
    apply_ite (@LoadState.loadedVideos n)]
  dsimp only
  rw [ite_self]

theorem loadVideo_els_ne_stage {n : ℕ} (v w : Fin n) (s : LoadState n)
    (hwv : w ≠ v)
    (hsrc : jsFalsyStr (jsOr (s.els v).lazySrc (s.els v).videoSrc) = false) :
    (loadVideo v s).els w = (unloadAllVideosExcept v (srcStage v s)).els w := by
  dsimp only [loadVideo]
  rw [hsrc, if_neg Bool.false_ne_true,
    apply_ite (fun t : LoadState n => t.els w)]
  dsimp only
  simp [Function.update_apply, hwv]

/-- C2 (amended, the part of the claim that does hold): a `loadVideo(v)`
call with a resolvable source evicts every other currently-loaded
video before fetching or playing, skipping exactly the audio-active
ones: afterwards every loaded video other than `v` is unmuted, every
other unmuted ("audio-active") loaded video is kept with its element
state untouched, and every other muted loaded video is gone.
(`loadedVideos` mirrors a JS `Set`, hence the no-duplicates
hypothesis.) -/
theorem loadVideo_evicts {n : ℕ} (v : Fin n) (s : LoadState n)
    (hnd : s.loadedVideos.Nodup)
    (hsrc : jsFalsyStr (jsOr (s.els v).lazySrc (s.els v).videoSrc) = false) :
    (∀ w, w ∈ (loadVideo v s).loadedVideos → w ≠ v →
        ((loadVideo v s).els w).muted = false)
  ∧ (∀ w, w ∈ s.loadedVideos → w ≠ v → (s.els w).muted = false →
        w ∈ (loadVideo v s).loadedVideos ∧ (loadVideo v s).els w = s.els w)
  ∧ (∀ w, w ∈ s.loadedVideos → w ≠ v → (s.els w).muted = true →
        w ∉ (loadVideo v s).loadedVideos) := by
  have hndS : (srcStage v s).loadedVideos.Nodup := by
    rw [srcStage_loaded]; exact hnd
  refine ⟨?_, ?_, ?_⟩
  · intro w hw hwv
    rw [loadVideo_loaded_eq v s hsrc] at hw
    rw [loadVideo_els_ne_stage v w s hwv hsrc]
    unfold unloadAllVideosExcept at hw ⊢
    rw [fold_unload_els_muted, srcStage_els_muted]
    cases hb : (s.els w).muted
    · rfl
    · exfalso
      have hwmem : w ∈ s.loadedVideos := by
        rw [← srcStage_loaded v s]
        exact fold_unload_loaded_sub _ _ _ hw
      have hwL : w ∈ ((srcStage v s).loadedVideos.filter (fun x => x != v)) := by
        rw [List.mem_filter, srcStage_loaded]
        exact ⟨hwmem, by simp [hwv]⟩
      exact fold_unload_evict _ (srcStage v s) w hndS hwL
        (by rw [srcStage_els_muted]; exact hb) hw
  · intro w hwmem hwv hm
    have hm1 : ((srcStage v s).els w).muted = false := by
      rw [srcStage_els_muted]; exact hm
    obtain ⟨e1, e2⟩ :=
      fold_unload_keep ((srcStage v s).loadedVideos.filter (fun x => x != v))
        (srcStage v s) w hm1
    constructor
    · rw [loadVideo_loaded_eq v s hsrc]
      unfold unloadAllVideosExcept
      exact e2.mpr (by rw [srcStage_loaded]; exact hwmem)
    · rw [loadVideo_els_ne_stage v w s hwv hsrc]
      unfold unloadAllVideosExcept
      rw [e1, srcStage_els_ne v w s hwv]
  · intro w hwmem hwv hm
    rw [loadVideo_loaded_eq v s hsrc]
    unfold unloadAllVideosExcept
    apply fold_unload_evict _ _ _ hndS
    · rw [List.mem_filter, srcStage_loaded]
      exact ⟨hwmem, by simp [hwv]⟩
    · rw [srcStage_els_muted]; exact hm

theorem jsSetAdd_mem_self {α : Type} [DecidableEq α] (l : List α) (a : α) :
    a ∈ jsSetAdd l a := by
  unfold jsSetAdd
  split_ifs with h
  · exact h
  · exact List.mem_append_right l (List.mem_singleton_self a)

/-- Concrete state for the eviction witness: video 1 is loaded and
muted (to be evicted), video 2 is loaded and audio-active (to be
kept), video 0 has a lazy source. -/
def loadKeepSt : LoadState 3 :=
  { els := fun v =>
      { lazySrc := some (if v = 0 then "a/video.mp4" else "b/video.mp4"),
        videoSrc := none, src := none, muted := (v != 2), playing := false,
        hasPhoto := true, loadingBar := none },
    loadedVideos := [1, 2],
    pendingFetches := [] }

/-- Concrete state for the missing-source witness: no lazy marker and
no recorded source. -/
def loadNoSrcSt : LoadState 1 :=
  { els := fun _ =>
      { lazySrc := none, videoSrc := none, src := none, muted := true,
        playing := false, hasPhoto := false, loadingBar := none },
    loadedVideos := [],
    pendingFetches := [] }

/-- Concrete state for the fetch-failure witness: a gallery video
mid-fetch (source recorded, lazy marker consumed, progress bar up). -/
def loadFailSt : LoadState 1 :=
  { els := fun _ =>
      { lazySrc := none, videoSrc := some "c/video.mp4", src := none,
        muted := true, playing := false, hasPhoto := true,
        loadingBar := some "5 / 10 KB (50%)" },
    loadedVideos := [],
    pendingFetches := [0] }

/-- A `loadVideo(v)` call that reaches the fetch path registers a
pending fetch for `v`. -/
theorem loadVideo_pending_self {n : ℕ} (v : Fin n) (s : LoadState n)
    (hsrc : jsFalsyStr (jsOr (s.els v).lazySrc (s.els v).videoSrc) = false)
    (hblob : jsStartsWithBlob ((s.els v).src) = false) :
    v ∈ (loadVideo v s).pendingFetches := by
  have hEv : (unloadAllVideosExcept v (srcStage v s)).els v = (srcStage v s).els v := by
    unfold unloadAllVideosExcept
    apply fold_unload_els_notmem
    intro hc
    have := (List.mem_filter.mp hc).2
    simp at this
  dsimp only [loadVideo]
  rw [hsrc, if_neg Bool.false_ne_true, hEv, srcStage_els_src, hblob,
    if_neg Bool.false_ne_true]
  dsimp only
  exact jsSetAdd_mem_self _ v

/-- C2 (witness): the eviction theorem applied to a concrete state
with video 1 loaded-and-muted while video 0 is (re)loaded. -/
theorem loadVideo_evicts_witness :
    (∀ w, w ∈ (loadVideo 0 loadKeepSt).loadedVideos → w ≠ 0 →
        ((loadVideo 0 loadKeepSt).els w).muted = false)
  ∧ (∀ w, w ∈ loadKeepSt.loadedVideos → w ≠ 0 → (loadKeepSt.els w).muted = false →
        w ∈ (loadVideo 0 loadKeepSt).loadedVideos ∧
          (loadVideo 0 loadKeepSt).els w = loadKeepSt.els w)
  ∧ (∀ w, w ∈ loadKeepSt.loadedVideos → w ≠ 0 → (loadKeepSt.els w).muted = true →
        w ∉ (loadVideo 0 loadKeepSt).loadedVideos) :=
  loadVideo_evicts 0 loadKeepSt (by decide) (by decide)

/-- C10: a `loadVideo` call on a video with neither a lazy-source
marker nor a recorded source URL returns in the guard of lines
203-206: no fetch starts, nothing is evicted, and the entire state —
loaded set, pending map and element state — is unchanged. -/
theorem loadVideo_noop_without_source {n : ℕ} (v : Fin n) (s : LoadState n)
    (h1 : (s.els v).lazySrc = none) (h2 : (s.els v).videoSrc = none) :
    loadVideo v s = s := by
  dsimp only [loadVideo]
  rw [h1, h2]
  rfl

/-- C10 (witness). -/
theorem loadVideo_noop_without_source_witness :
    loadVideo 0 loadNoSrcSt = loadNoSrcSt :=
  loadVideo_noop_without_source 0 loadNoSrcSt rfl rfl

/-- C8: when a fetch started by `loadVideo` fails for a non-abort
reason, an inline `Error: <message>` is shown in the item's loading
bar, the lazy-source marker is restored from `data-video-src`, the
pending-fetch map only shrinks (no automatic retry is initiated), and
a subsequent `loadVideo` call on the same video registers a fresh
fetch. -/
theorem fetchFail_inline_error_and_retry {n : ℕ} (v : Fin n) (s : LoadState n)
    (msg : String)
    (hphoto : (s.els v).hasPhoto = true)
    (hvsrc : jsFalsyStr (s.els v).videoSrc = false)
    (hblob : jsStartsWithBlob ((s.els v).src) = false) :
    ((fetchFail v msg s).els v).loadingBar = some ("Error: " ++ msg)
  ∧ ((fetchFail v msg s).els v).lazySrc = (s.els v).videoSrc
  ∧ (fetchFail v msg s).pendingFetches = s.pendingFetches.erase v
  ∧ v ∈ (loadVideo v (fetchFail v msg s)).pendingFetches := by
  have hlz : ((fetchFail v msg s).els v).lazySrc = (s.els v).videoSrc := by
    dsimp only [fetchFail]
    simp [Function.update_apply, hvsrc]
  have hvz : ((fetchFail v msg s).els v).videoSrc = (s.els v).videoSrc := by
    dsimp only [fetchFail]
    simp [Function.update_apply]
  have hsc : ((fetchFail v msg s).els v).src = (s.els v).src := by
    dsimp only [fetchFail]
    simp [Function.update_apply]
  refine ⟨?_, hlz, rfl, ?_⟩
  · dsimp only [fetchFail]
    simp [Function.update_apply, hphoto]
  · apply loadVideo_pending_self
    · rw [hlz, hvz]
      unfold jsOr
      rw [hvsrc, if_neg Bool.false_ne_true]
      exact hvsrc
    · rw [hsc]; exact hblob

/-- C8 (witness): a failed fetch on a concrete gallery video. -/
theorem fetchFail_inline_error_and_retry_witness :
    ((fetchFail 0 "Network response was not ok" loadFailSt).els 0).loadingBar
        = some ("Error: " ++ "Network response was not ok")
  ∧ ((fetchFail 0 "Network response was not ok" loadFailSt).els 0).lazySrc
        = (loadFailSt.els 0).videoSrc
  ∧ (fetchFail 0 "Network response was not ok" loadFailSt).pendingFetches
        = loadFailSt.pendingFetches.erase 0
  ∧ 0 ∈ (loadVideo 0 (fetchFail 0 "Network response was not ok" loadFailSt)).pendingFetches :=
  fetchFail_inline_error_and_retry 0 loadFailSt "Network response was not ok"
    (by decide) (by decide) (by decide)

/-! ## Gallery geometry (`media-gallery.js` lines 420-526)

`CONFIG` constants (lines 23-50) used by the interaction state
machine.  The DOM reads of `constrainToViewport` — `offsetWidth` /
`offsetHeight`, the offset-parent chain walk minus scroll
(lines 488-498), and `window.innerWidth` / `innerHeight` — are
summarized by a `Layout` record. -/

def hoverScale : ℚ := 2.55

def clickedScale : ℚ := 5

def hoverRotationReset : ℚ := 1

def putDownDrift : ℚ := 31

def putDownRotation : ℚ := 7.5

def maxDriftFromOrigin : ℚ := 32

def dragThreshold : ℚ := 5

/-- `clamp(val, min, max)` (lines 440-442):
`Math.max(min, Math.min(max, val))`. -/
def clamp (val lo hi : ℚ) : ℚ := max lo (min hi val)

structure Layout where
  photoWidth : ℚ
  photoHeight : ℚ
  baseLeft : ℚ
  baseTop : ℚ
  innerWidth : ℚ
  innerHeight : ℚ
deriving DecidableEq

/-- `scaledHalfWidth` (line 482). -/
def scaledHalfWidth (L : Layout) (scale : ℚ) : ℚ := L.photoWidth * scale / 2

/-- `scaledHalfHeight` (line 483). -/
def scaledHalfHeight (L : Layout) (scale : ℚ) : ℚ := L.photoHeight * scale / 2

/-- `centerX` (line 501): the photo's untranslated center in viewport
coordinates. -/
def centerX (L : Layout) : ℚ := L.baseLeft + L.photoWidth / 2

/-- `centerY` (line 502). -/
def centerY (L : Layout) : ℚ := L.baseTop + L.photoHeight / 2

/-- `constrainToViewport(photo, x, y, scale)` (lines 478-526): clamp
the candidate translation between `minX = scaledHalfWidth - centerX`,
`maxX = innerWidth - centerX - scaledHalfWidth` (and the analogous Y
bounds). -/
def constrainToViewport (L : Layout) (x y scale : ℚ) : ℚ × ℚ :=
  (clamp x (scaledHalfWidth L scale - centerX L)
          (L.innerWidth - centerX L - scaledHalfWidth L scale),
   clamp y (scaledHalfHeight L scale - centerY L)
          (L.innerHeight - centerY L - scaledHalfHeight L scale))

theorem le_clamp (val lo hi : ℚ) : lo ≤ clamp val lo hi := le_max_left _ _

theorem clamp_le (val lo hi : ℚ) (h : lo ≤ hi) : clamp val lo hi ≤ hi :=
  max_le h (min_le_left _ _)

theorem clamp_idem (val lo hi : ℚ) :
    clamp (clamp val lo hi) lo hi = clamp val lo hi := by
  unfold clamp
  simp only [max_def, min_def]
  split_ifs <;> linarith

/-- The geometry of the counterexample: a 180x129 photo whose center
sits at (400, 164.5) in an 800x600 viewport. -/
def layoutSmallViewport : Layout :=
  { photoWidth := 180, photoHeight := 129, baseLeft := 310, baseTop := 100,
    innerWidth := 800, innerHeight := 600 }

/-- C4 (counterexample): at `clickedScale = 5` the scaled box is
900px wide, wider than the 800px viewport, so the clamp with
`minX > maxX` returns `minX` (`Math.max` wins) and the right edge
lands at 900 — outside `[0, viewportWidth]`. -/
theorem c4_counterexample :
    ¬ (centerX layoutSmallViewport
        + (constrainToViewport layoutSmallViewport 0 0 clickedScale).1
        + scaledHalfWidth layoutSmallViewport clickedScale
        ≤ layoutSmallViewport.innerWidth) := by
  unfold constrainToViewport clamp scaledHalfWidth centerX layoutSmallViewport
    clickedScale
  norm_num [max_def, min_def]

/-- C4 (amended): constraining an already-constrained position returns
it unchanged (idempotence, for *all* inputs); and whenever the scaled
photo fits in the viewport (`photoWidth*scale ≤ innerWidth` and
`photoHeight*scale ≤ innerHeight`), the constrained position places
the scaled bounding box entirely within
`[0, innerWidth] × [0, innerHeight]`. -/
theorem constrainToViewport_within_and_idem (L : Layout) (x y scale : ℚ) :
    constrainToViewport L (constrainToViewport L x y scale).1
      (constrainToViewport L x y scale).2 scale
      = constrainToViewport L x y scale
  ∧ (L.photoWidth * scale ≤ L.innerWidth →
     L.photoHeight * scale ≤ L.innerHeight →
      (0 ≤ centerX L + (constrainToViewport L x y scale).1
            - scaledHalfWidth L scale
    ∧ centerX L + (constrainToViewport L x y scale).1 + scaledHalfWidth L scale
        ≤ L.innerWidth
    ∧ 0 ≤ centerY L + (constrainToViewport L x y scale).2
            - scaledHalfHeight L scale
    ∧ centerY L + (constrainToViewport L x y scale).2 + scaledHalfHeight L scale
        ≤ L.innerHeight)) := by
  constructor
  · dsimp only [constrainToViewport]
    rw [clamp_idem, clamp_idem]
  · intro hW hH
    have hlhW : scaledHalfWidth L scale - centerX L
        ≤ L.innerWidth - centerX L - scaledHalfWidth L scale := by
      unfold scaledHalfWidth; linarith
    have hlhH : scaledHalfHeight L scale - centerY L
        ≤ L.innerHeight - centerY L - scaledHalfHeight L scale := by
      unfold scaledHalfHeight; linarith
    have c1 := le_clamp x (scaledHalfWidth L scale - centerX L)
      (L.innerWidth - centerX L - scaledHalfWidth L scale)
    have c2 := clamp_le x (scaledHalfWidth L scale - centerX L)
      (L.innerWidth - centerX L - scaledHalfWidth L scale) hlhW
    have c3 := le_clamp y (scaledHalfHeight L scale - centerY L)
      (L.innerHeight - centerY L - scaledHalfHeight L scale)
    have c4 := clamp_le y (scaledHalfHeight L scale - centerY L)
      (L.innerHeight - centerY L - scaledHalfHeight L scale) hlhH
    refine ⟨?_, ?_, ?_, ?_⟩
    · dsimp only [constrainToViewport]; linarith
    · dsimp only [constrainToViewport]; linarith
    · dsimp only [constrainToViewport]; linarith
    · dsimp only [constrainToViewport]; linarith

/-- C4 (witness): idempotence at the oversized `clickedScale`, where
the scaled box does not fit, and containment at scale 1, where it
does. -/
theorem constrainToViewport_within_and_idem_witness :
    constrainToViewport layoutSmallViewport
      (constrainToViewport layoutSmallViewport 0 0 clickedScale).1
      (constrainToViewport layoutSmallViewport 0 0 clickedScale).2 clickedScale
      = constrainToViewport layoutSmallViewport 0 0 clickedScale
  ∧ (0 ≤ centerX layoutSmallViewport
        + (constrainToViewport layoutSmallViewport 0 0 1).1
        - scaledHalfWidth layoutSmallViewport 1
  ∧ centerX layoutSmallViewport
        + (constrainToViewport layoutSmallViewport 0 0 1).1
        + scaledHalfWidth layoutSmallViewport 1
      ≤ layoutSmallViewport.innerWidth
  ∧ 0 ≤ centerY layoutSmallViewport
        + (constrainToViewport layoutSmallViewport 0 0 1).2
        - scaledHalfHeight layoutSmallViewport 1
  ∧ centerY layoutSmallViewport
        + (constrainToViewport layoutSmallViewport 0 0 1).2
        + scaledHalfHeight layoutSmallViewport 1
      ≤ layoutSmallViewport.innerHeight) :=
  ⟨(constrainToViewport_within_and_idem layoutSmallViewport 0 0 clickedScale).1,
   (constrainToViewport_within_and_idem layoutSmallViewport 0 0 1).2
     (by norm_num [layoutSmallViewport]) (by norm_num [layoutSmallViewport])⟩

/-! ## Photo Interaction State Machine (`media-gallery.js` lines 424-717, 855-877)

Per-photo state is stored in `dataset` attributes (`state`,
`currentX/Y`, `currentRotation`, `originX/Y`, `hoverX/Y`,
`hoverRotation`, `dragX/Y`, `justDismissed`); the drag session is the
global `dragState` object (lines 425-434).  The model covers one
entity plus the global drag slot, so an active `DragSession` always
belongs to this entity (`dragState.photo === photo`).  Class toggles,
z-index, transforms, tilt (`onPhotoMouseMove`, presentation only) and
the video-unload side effect of `enterNormalState` (modelled in the
video resource manager) are omitted; `randomInRange` draws and the
mobile media query are parameters. -/

inductive PState where
  | normal
  | hover
  | clicked
deriving DecidableEq

structure Photo where
  state : PState
  currentX : ℚ
  currentY : ℚ
  currentRotation : ℚ
  originX : ℚ
  originY : ℚ
  hoverX : ℚ
  hoverY : ℚ
  hoverRotation : ℚ
  dragX : Option ℚ
  dragY : Option ℚ
  justDismissed : Bool
deriving DecidableEq

structure Drag where
  active : Bool
  startX : ℚ
  startY : ℚ
  offsetX : ℚ
  offsetY : ℚ
  hasDragged : Bool
  isFirstClick : Bool
deriving DecidableEq

structure GSt where
  photo : Photo
  drag : Drag
deriving DecidableEq

/-- Put-down position computation of `enterNormalState`
(lines 590-595): add the drawn jitter, then clamp each axis to within
`maxDriftFromOrigin` of the origin position. -/
def putDownPosition (currentX currentY originX originY jx jy : ℚ) : ℚ × ℚ :=
  (clamp (currentX + jx) (originX - maxDriftFromOrigin) (originX + maxDriftFromOrigin),
   clamp (currentY + jy) (originY - maxDriftFromOrigin) (originY + maxDriftFromOrigin))

/-- `enterHoverState(photo)` (lines 528-551): mobile guard, `normal`
guard, then store the viewport-constrained hover position (video
reveal/load is modelled in the video resource manager). -/
def enterHoverState (isMobile : Bool) (L : Layout) (p : Photo) : Photo :=
  if isMobile then p
  else if p.state ≠ PState.normal then p
  else
    let c := constrainToViewport L p.currentX p.currentY hoverScale
    { p with hoverRotation := p.currentRotation * (1 - hoverRotationReset),
             hoverX := c.1, hoverY := c.2, state := PState.hover }

/-- `enterClickedState(photo)` (lines 553-569): `hover` guard, commit
the viewport-constrained position at `clickedScale`. -/
def enterClickedState (L : Layout) (p : Photo) : Photo :=
  if p.state ≠ PState.hover then p
  else
    let c := constrainToViewport L p.currentX p.currentY clickedScale
    { p with state := PState.clicked, currentX := c.1, currentY := c.2 }

/-- `enterNormalState(photo)` (lines 571-603): `normal` guard, then
commit the jittered, origin-clamped put-down position and rotation
(`jx`, `jy` stand for the `randomInRange(-putDownDrift, putDownDrift)`
draws, `jr` for the rotation draw). -/
def enterNormalState (jx jy jr : ℚ) (p : Photo) : Photo :=
  if p.state = PState.normal then p
  else
    let pos := putDownPosition p.currentX p.currentY p.originX p.originY jx jy
    { p with state := PState.normal, currentX := pos.1, currentY := pos.2,
             currentRotation := jr }

/-- `onPhotoMouseDown(photo, e)` (lines 635-654): only in `clicked`
state; start a drag session from the pointer position and the current
translation (the object literal leaves `isFirstClick` undefined =
false; the caller sets it, see `mouseDown`). -/
def onPhotoMouseDown (eX eY : ℚ) (st : GSt) : GSt :=
  if st.photo.state ≠ PState.clicked then st
  else
    { st with drag :=
        { active := true, startX := eX, startY := eY,
          offsetX := st.photo.currentX, offsetY := st.photo.currentY,
          hasDragged := false, isFirstClick := false } }

/-- `onDocumentMouseMove(e)` (lines 656-680): ignore until the
cumulative displacement exceeds `dragThreshold`
(`Math.sqrt(dx*dx + dy*dy) > threshold` is compared squared here),
then store the viewport-constrained tentative position in
`dataset.dragX/Y`. -/
def onDocumentMouseMove (L : Layout) (eX eY : ℚ) (st : GSt) : GSt :=
  if st.drag.active = false then st
  else
    let dx := eX - st.drag.startX
    let dy := eY - st.drag.startY
    if st.drag.hasDragged = false ∧ dx ^ 2 + dy ^ 2 ≤ dragThreshold ^ 2 then st
    else
      let c := constrainToViewport L (st.drag.offsetX + dx) (st.drag.offsetY + dy)
        clickedScale
      { photo := { st.photo with dragX := some c.1, dragY := some c.2 },
        drag := { st.drag with hasDragged := true } }

/-- The full `dragState` reset of `onDocumentMouseUp` (lines 696-705). -/
def dragReset : Drag :=
  { active := false, startX := 0, startY := 0, offsetX := 0, offsetY := 0,
    hasDragged := false, isFirstClick := false }

/-- The position commit of `onDocumentMouseUp` (lines 691-694):
`dataset.currentX = dataset.dragX || dataset.currentX` (a stored drag
position is a stringified number, present iff a drag move ran). -/
def commitDrag (p : Photo) : Photo :=
  { p with currentX := p.dragX.getD p.currentX,
           currentY := p.dragY.getD p.currentY }

/-- `onDocumentMouseUp(e)` (lines 682-712): commit the dragged
position if a drag happened, reset the drag slot, and dismiss to
normal on a second (non-first, non-drag) click on a clicked photo. -/
def onDocumentMouseUp (jx jy jr : ℚ) (st : GSt) : GSt :=
  if st.drag.active = false then st
  else
    let wasDrag := st.drag.hasDragged
    let wasFirstClick := st.drag.isFirstClick
    let p1 := if wasDrag then commitDrag st.photo else st.photo
    if wasDrag = false ∧ p1.state = PState.clicked ∧ wasFirstClick = false then
      { photo := { (enterNormalState jx jy jr p1) with justDismissed := true },
        drag := dragReset }
    else
      { photo := p1, drag := dragReset }

/-- `mouseenter` listener (lines 855-858). -/
def mouseEnter (isMobile : Bool) (L : Layout) (st : GSt) : GSt :=
  if st.photo.justDismissed then st
  else { st with photo := enterHoverState isMobile L st.photo }

/-- `mouseleave` listener (lines 859-862) plus `onPhotoMouseLeave`
(lines 714-717): clear `justDismissed`; skip the normal transition
while this entity's drag session is active. -/
def mouseLeave (jx jy jr : ℚ) (st : GSt) : GSt :=
  let p := { st.photo with justDismissed := false }
  if st.drag.active then { st with photo := p }
  else { st with photo := enterNormalState jx jy jr p }

/-- `mousedown` listener (lines 863-876). -/
def mouseDown (isMobile : Bool) (L : Layout) (eX eY : ℚ) (st : GSt) : GSt :=
  match st.photo.state, st.photo.justDismissed with
  | PState.normal, true =>
      { st with photo :=
          enterHoverState isMobile L { st.photo with justDismissed := false } }
  | PState.hover, _ =>
      let st1 := onPhotoMouseDown eX eY { st with photo := enterClickedState L st.photo }
      { st1 with drag := { st1.drag with isFirstClick := true } }
  | PState.clicked, _ =>
      let st1 := onPhotoMouseDown eX eY st
      { st1 with drag := { st1.drag with isFirstClick := false } }
  | PState.normal, false => st

/-- The defined edges of the interaction state machine (spec section
4.4). -/
inductive Edge : PState → PState → Prop where
  | normalHover : Edge PState.normal PState.hover
  | hoverClicked : Edge PState.hover PState.clicked
  | hoverNormal : Edge PState.hover PState.normal
  | clickedNormal : Edge PState.clicked PState.normal

/-- Pointer events of the interaction state machine. -/
inductive GStep : GSt → GSt → Prop where
  | enter (m : Bool) (L : Layout) (s : GSt) : GStep s (mouseEnter m L s)
  | leave (jx jy jr : ℚ) (s : GSt) : GStep s (mouseLeave jx jy jr s)
  | down (m : Bool) (L : Layout) (eX eY : ℚ) (s : GSt) :
      GStep s (mouseDown m L eX eY s)
  | move (L : Layout) (eX eY : ℚ) (s : GSt) :
      GStep s (onDocumentMouseMove L eX eY s)
  | up (jx jy jr : ℚ) (s : GSt) : GStep s (onDocumentMouseUp jx jy jr s)

theorem enterHoverState_state (m : Bool) (L : Layout) (p : Photo) :
    (enterHoverState m L p).state = p.state ∨
      (p.state = PState.normal ∧ (enterHoverState m L p).state = PState.hover) := by
  unfold enterHoverState
  split_ifs with h1 h2
  · exact Or.inl rfl
  · exact Or.inl rfl
  · exact Or.inr ⟨not_not.mp h2, rfl⟩

theorem enterClickedState_state (L : Layout) (p : Photo) :
    (enterClickedState L p).state = p.state ∨
      (p.state = PState.hover ∧ (enterClickedState L p).state = PState.clicked) := by
  unfold enterClickedState
  split_ifs with h1
  · exact Or.inl rfl
  · exact Or.inr ⟨not_not.mp h1, rfl⟩

theorem enterNormalState_state (jx jy jr : ℚ) (p : Photo) :
    (enterNormalState jx jy jr p).state = PState.normal := by
  unfold enterNormalState
  split_ifs with h
  · exact h
  · rfl

theorem onPhotoMouseDown_photo (eX eY : ℚ) (st : GSt) :
    (onPhotoMouseDown eX eY st).photo = st.photo := by
  unfold onPhotoMouseDown
  split_ifs <;> rfl

theorem mouseDown_eq_self (m : Bool) (L : Layout) (eX eY : ℚ) (s : GSt)
    (h1 : s.photo.state = PState.normal) (h2 : s.photo.justDismissed = false) :
    mouseDown m L eX eY s = s := by
  unfold mouseDown
  rw [h1, h2]

theorem mouseDown_photo_normal_true (m : Bool) (L : Layout) (eX eY : ℚ) (s : GSt)
    (h1 : s.photo.state = PState.normal) (h2 : s.photo.justDismissed = true) :
    (mouseDown m L eX eY s).photo
      = enterHoverState m L { s.photo with justDismissed := false } := by
  unfold mouseDown
  rw [h1, h2]

theorem mouseDown_photo_hover (m : Bool) (L : Layout) (eX eY : ℚ) (s : GSt)
    (h1 : s.photo.state = PState.hover) :
    (mouseDown m L eX eY s).photo = enterClickedState L s.photo := by
  unfold mouseDown
  rw [h1]
  dsimp only
  rw [onPhotoMouseDown_photo]

theorem mouseDown_photo_clicked (m : Bool) (L : Layout) (eX eY : ℚ) (s : GSt)
    (h1 : s.photo.state = PState.clicked) :
    (mouseDown m L eX eY s).photo = s.photo := by
  unfold mouseDown
  rw [h1]
  dsimp only
  rw [onPhotoMouseDown_photo]

theorem edge_to_normal (a : PState) (h : a ≠ PState.normal) :
    Edge a PState.normal := by
  cases a
  · exact absurd rfl h
  · exact Edge.hoverNormal
  · exact Edge.clickedNormal

/-- C3: for every pointer event handled by the interaction state
machine, the entity's state is one of {Normal, Hover, Clicked} and
every state change follows a defined edge (Normal→Hover,
Hover→Clicked, Hover→Normal, Clicked→Normal). -/
theorem c3_state_edges (s t : GSt) (h : GStep s t) :
    (t.photo.state = PState.normal ∨ t.photo.state = PState.hover ∨
      t.photo.state = PState.clicked)
  ∧ (t.photo.state = s.photo.state ∨ Edge s.photo.state t.photo.state) := by
  constructor
  · cases t.photo.state
    · exact Or.inl rfl
    · exact Or.inr (Or.inl rfl)
    · exact Or.inr (Or.inr rfl)
  · cases h with
    | enter m L s =>
      unfold mouseEnter
      split_ifs
      · exact Or.inl rfl
      · rcases enterHoverState_state m L s.photo with h1 | ⟨h1, h2⟩
        · exact Or.inl h1
        · refine Or.inr ?_
          show Edge s.photo.state (enterHoverState m L s.photo).state
          rw [h1, h2]
          exact Edge.normalHover
    | leave jx jy jr s =>
      unfold mouseLeave
      split_ifs
      · exact Or.inl rfl
      · by_cases hn : s.photo.state = PState.normal
        · refine Or.inl ?_
          show (enterNormalState jx jy jr { s.photo with justDismissed := false }).state
            = s.photo.state
          rw [enterNormalState_state, hn]
        · refine Or.inr ?_
          show Edge s.photo.state
            (enterNormalState jx jy jr { s.photo with justDismissed := false }).state
          rw [enterNormalState_state]
          exact edge_to_normal _ hn
    | down m L eX eY s =>
      cases hs : s.photo.state with
      | normal =>
        cases hj : s.photo.justDismissed with
        | false =>
          rw [mouseDown_eq_self m L eX eY s hs hj]
          exact Or.inl hs
        | true =>
          rw [mouseDown_photo_normal_true m L eX eY s hs hj]
          rcases enterHoverState_state m L { s.photo with justDismissed := false }
            with h1 | ⟨_, h2⟩
          · left
            rw [h1]
            exact hs
          · right
            rw [h2]
            exact Edge.normalHover
      | hover =>
        rw [mouseDown_photo_hover m L eX eY s hs]
        rcases enterClickedState_state L s.photo with h1 | ⟨_, h2⟩
        · left
          rw [h1]
          exact hs
        · right
          rw [h2]
          exact Edge.hoverClicked
      | clicked =>
        rw [mouseDown_photo_clicked m L eX eY s hs]
        exact Or.inl hs
    | move L eX eY s =>
      dsimp only [onDocumentMouseMove]
      by_cases h1 : s.drag.active = false
      · rw [if_pos h1]; exact Or.inl rfl
      · rw [if_neg h1]
        by_cases h2 : s.drag.hasDragged = false ∧
            (eX - s.drag.startX) ^ 2 + (eY - s.drag.startY) ^ 2 ≤ dragThreshold ^ 2
        · rw [if_pos h2]; exact Or.inl rfl
        · rw [if_neg h2]; exact Or.inl rfl
    | up jx jy jr s =>
      dsimp only [onDocumentMouseUp]
      by_cases h1 : s.drag.active = false
      · rw [if_pos h1]; exact Or.inl rfl
      · rw [if_neg h1]
        by_cases hd : s.drag.hasDragged = true
        · rw [if_pos hd, if_neg (by rw [hd]; simp)]
          exact Or.inl rfl
        · rw [if_neg hd]
          by_cases hc : s.drag.hasDragged = false ∧ s.photo.state = PState.clicked ∧
              s.drag.isFirstClick = false
          · rw [if_pos hc]
            refine Or.inr ?_
            show Edge s.photo.state (enterNormalState jx jy jr s.photo).state
            rw [enterNormalState_state, hc.2.1]
            exact Edge.clickedNormal
          · rw [if_neg hc]
            exact Or.inl rfl

/-- A concrete resting entity for the C3 witness. -/
def photoRest : Photo :=
  { state := PState.normal, currentX := 0, currentY := 0, currentRotation := 1,
    originX := 0, originY := 0, hoverX := 0, hoverY := 0, hoverRotation := 0,
    dragX := none, dragY := none, justDismissed := false }

def gstRest : GSt := { photo := photoRest, drag := dragReset }

/-- C3 (witness): the edge theorem applied to a `mouseenter` on a
resting entity. -/
theorem c3_state_edges_witness :
    ((mouseEnter false layoutSmallViewport gstRest).photo.state = PState.normal ∨
      (mouseEnter false layoutSmallViewport gstRest).photo.state = PState.hover ∨
      (mouseEnter false layoutSmallViewport gstRest).photo.state = PState.clicked)
  ∧ ((mouseEnter false layoutSmallViewport gstRest).photo.state
        = gstRest.photo.state ∨
      Edge gstRest.photo.state
        (mouseEnter false layoutSmallViewport gstRest).photo.state) :=
  c3_state_edges gstRest (mouseEnter false layoutSmallViewport gstRest)
    (GStep.enter false layoutSmallViewport gstRest)

/-- C6: ending a drag session on a Clicked entity with pointer-up.
If the cumulative displacement never exceeded `dragThreshold` and the
session was not the initial hover→clicked click, the entity dismisses
to Normal.  If a pointer-move exceeded the threshold, the dragged
viewport-constrained position is committed as the entity's current
position and the entity remains Clicked. -/
theorem c6_drag_end (L : Layout) (st : GSt) (eX eY jx jy jr : ℚ)
    (hA : st.drag.active = true) (hC : st.photo.state = PState.clicked) :
    (st.drag.hasDragged = false → st.drag.isFirstClick = false →
        (onDocumentMouseUp jx jy jr st).photo.state = PState.normal)
  ∧ ((eX - st.drag.startX) ^ 2 + (eY - st.drag.startY) ^ 2 > dragThreshold ^ 2 →
        ((onDocumentMouseUp jx jy jr (onDocumentMouseMove L eX eY st)).photo.state
            = PState.clicked
        ∧ (onDocumentMouseUp jx jy jr (onDocumentMouseMove L eX eY st)).photo.currentX
            = (constrainToViewport L (st.drag.offsetX + (eX - st.drag.startX))
                (st.drag.offsetY + (eY - st.drag.startY)) clickedScale).1
        ∧ (onDocumentMouseUp jx jy jr (onDocumentMouseMove L eX eY st)).photo.currentY
            = (constrainToViewport L (st.drag.offsetX + (eX - st.drag.startX))
                (st.drag.offsetY + (eY - st.drag.startY)) clickedScale).2)) := by
  constructor
  · intro hD hF
    dsimp only [onDocumentMouseUp]
    rw [if_neg (by rw [hA]; simp)]
    have hp1 : (if st.drag.hasDragged = true then commitDrag st.photo else st.photo)
        = st.photo := by rw [hD]; simp
    rw [hp1, if_pos ⟨hD, hC, hF⟩]
    exact enterNormalState_state jx jy jr st.photo
  · intro hdist
    have hmv : onDocumentMouseMove L eX eY st =
        { photo := { st.photo with
              dragX := some (constrainToViewport L
                (st.drag.offsetX + (eX - st.drag.startX))
                (st.drag.offsetY + (eY - st.drag.startY)) clickedScale).1,
              dragY := some (constrainToViewport L
                (st.drag.offsetX + (eX - st.drag.startX))
                (st.drag.offsetY + (eY - st.drag.startY)) clickedScale).2 },
          drag := { st.drag with hasDragged := true } } := by
      dsimp only [onDocumentMouseMove]
      rw [if_neg (by rw [hA]; simp),
        if_neg (fun hc => absurd hc.2 (not_le.mpr hdist))]
    rw [hmv]
    dsimp only [onDocumentMouseUp]
    rw [if_neg (by rw [hA]; simp), if_pos rfl, if_neg (by simp)]
    exact ⟨hC, rfl, rfl⟩

/-- A concrete clicked entity with an active drag session for the C6
witness. -/
def gstClicked : GSt :=
  { photo := { state := PState.clicked, currentX := 10, currentY := 5,
               currentRotation := 0, originX := 0, originY := 0, hoverX := 0,
               hoverY := 0, hoverRotation := 0, dragX := none, dragY := none,
               justDismissed := false },
    drag := { active := true, startX := 100, startY := 100, offsetX := 10,
              offsetY := 5, hasDragged := false, isFirstClick := false } }

/-- C6 (witness): both branches at a concrete clicked, dragging
entity (a 100px move exceeds the 5px threshold). -/
theorem c6_drag_end_witness :
    (onDocumentMouseUp 1 2 3 gstClicked).photo.state = PState.normal
  ∧ ((onDocumentMouseUp 1 2 3
        (onDocumentMouseMove layoutSmallViewport 200 100 gstClicked)).photo.state
        = PState.clicked
    ∧ (onDocumentMouseUp 1 2 3
        (onDocumentMouseMove layoutSmallViewport 200 100 gstClicked)).photo.currentX
        = (constrainToViewport layoutSmallViewport
            (gstClicked.drag.offsetX + (200 - gstClicked.drag.startX))
            (gstClicked.drag.offsetY + (100 - gstClicked.drag.startY))
            clickedScale).1
    ∧ (onDocumentMouseUp 1 2 3
        (onDocumentMouseMove layoutSmallViewport 200 100 gstClicked)).photo.currentY
        = (constrainToViewport layoutSmallViewport
            (gstClicked.drag.offsetX + (200 - gstClicked.drag.startX))
            (gstClicked.drag.offsetY + (100 - gstClicked.drag.startY))
            clickedScale).2) := by
  have h := c6_drag_end layoutSmallViewport gstClicked 200 100 1 2 3 rfl rfl
  exact ⟨h.1 rfl rfl, h.2 (by norm_num [gstClicked, dragThreshold])⟩

/-- C7: on every put-down event (a transition to Normal), whatever
jitter values are drawn, the committed position differs from the
entity's origin position by at most `maxDriftFromOrigin` on each axis
independently. -/
theorem c7_putdown_drift (jx jy jr : ℚ) (p : Photo)
    (h : p.state ≠ PState.normal) :
    |(enterNormalState jx jy jr p).currentX - p.originX| ≤ maxDriftFromOrigin
  ∧ |(enterNormalState jx jy jr p).currentY - p.originY| ≤ maxDriftFromOrigin := by
  have hlo : p.originX - maxDriftFromOrigin ≤ p.originX + maxDriftFromOrigin := by
    unfold maxDriftFromOrigin; linarith
  have hlo2 : p.originY - maxDriftFromOrigin ≤ p.originY + maxDriftFromOrigin := by
    unfold maxDriftFromOrigin; linarith
  have c1 := le_clamp (p.currentX + jx) (p.originX - maxDriftFromOrigin)
    (p.originX + maxDriftFromOrigin)
  have c2 := clamp_le (p.currentX + jx) (p.originX - maxDriftFromOrigin)
    (p.originX + maxDriftFromOrigin) hlo
  have c3 := le_clamp (p.currentY + jy) (p.originY - maxDriftFromOrigin)
    (p.originY + maxDriftFromOrigin)
  have c4 := clamp_le (p.currentY + jy) (p.originY - maxDriftFromOrigin)
    (p.originY + maxDriftFromOrigin) hlo2
  unfold enterNormalState
  rw [if_neg h]
  dsimp only [putDownPosition]
  exact ⟨abs_le.mpr ⟨by linarith, by linarith⟩,
         abs_le.mpr ⟨by linarith, by linarith⟩⟩

/-- A hovering entity far from its origin, for the C7 witness. -/
def photoHoverFar : Photo :=
  { state := PState.hover, currentX := 500, currentY := -400,
    currentRotation := 0, originX := 3, originY := 4, hoverX := 0, hoverY := 0,
    hoverRotation := 0, dragX := none, dragY := none, justDismissed := false }

/-- C7 (witness): put-down with huge jitter values still lands within
`maxDriftFromOrigin` of the origin. -/
theorem c7_putdown_drift_witness :
    |(enterNormalState 1000 (-1000) 7 photoHoverFar).currentX
        - photoHoverFar.originX| ≤ maxDriftFromOrigin
  ∧ |(enterNormalState 1000 (-1000) 7 photoHoverFar).currentY
        - photoHoverFar.originY| ≤ maxDriftFromOrigin :=
  c7_putdown_drift 1000 (-1000) 7 photoHoverFar (by decide)

/-! ## Asset Descriptor Parser (`media-gallery.js` lines 719-754)

A raw gallery item declaration is a plain URL string, an array of
strings (only element 0 is read), or an object with optional `type`,
`src`, `thumb`, `preview`, `center` fields; absent object fields are
`none`. -/

inductive ItemData where
  | str (s : String)
  | arr (l : List String)
  | obj (type src thumb preview : Option String) (center : Option (ℚ × ℚ))

structure ParsedItem where
  type : String
  src : Option String
  thumb : Option String
  preview : Option String
  center : Option (ℚ × ℚ)
deriving DecidableEq

/-- `item.src.substring(0, lastSlash + 1)` (line 738): everything up
to and including the last `/` (empty when there is no slash,
matching `lastIndexOf` returning -1). -/
def dirOf (s : String) : String :=
  String.mk ((s.data.reverse.dropWhile (fun c => c ≠ '/')).reverse)

/-- `item.src.substring(lastSlash + 1)` (line 739). -/
def fileOf (s : String) : String :=
  String.mk ((s.data.reverse.takeWhile (fun c => c ≠ '/')).reverse)

/-- Does the name end in `.mp4`, case-insensitively (the regex
`/\.mp4$/i`, line 740)? -/
def isMp4Suffix (l : List Char) : Bool :=
  match l.reverse with
  | four :: p :: m :: dot :: _ =>
      dot == '.' && (m == 'm' || m == 'M') && (p == 'p' || p == 'P') && four == '4'
  | _ => false

/-- `filename.replace(/\.mp4$/i, '')` (line 740). -/
def stripMp4Suffix (f : String) : String :=
  if isMp4Suffix f.data then String.mk (f.data.take (f.data.length - 4)) else f

/-- `parseItemData(itemData)` (lines 719-754). -/
def parseItemData (itemData : ItemData) : ParsedItem :=
  match itemData with
  | ItemData.str s =>
      { type := "image", src := some s, thumb := none, preview := none,
        center := none }
  | ItemData.arr l =>
      { type := "image", src := l.head?, thumb := none, preview := none,
        center := none }
  | ItemData.obj t src thumb preview center =>
      let item : ParsedItem :=
        { type := (jsOr t (some "image")).getD "image", src := src,
          thumb := thumb, preview := preview, center := center }
      if item.type = "video" ∧ jsFalsyStr item.src = false then
        let dir := dirOf (item.src.getD "")
        let basename := stripMp4Suffix (fileOf (item.src.getD ""))
        if basename = "video" then
          { item with
              thumb := if jsFalsyStr item.thumb then some (dir ++ "thumb.jpg")
                       else item.thumb,
              preview := if jsFalsyStr item.preview then some (dir ++ "preview.gif")
                         else item.preview }
        else
          { item with
              thumb := if jsFalsyStr item.thumb
                       then some (dir ++ basename ++ "-thumb.jpg")
                       else item.thumb,
              preview := if jsFalsyStr item.preview
                         then some (dir ++ basename ++ "-preview.gif")
                         else item.preview }
      else item

/-- C9 (counterexample): an explicitly supplied *empty-string* thumb
is overwritten — `if (!item.thumb)` treats `""` as absent, so the
derived default replaces the supplied value. -/
theorem c9_counterexample :
    (parseItemData
        (ItemData.obj (some "video") (some "dir/video.mp4") (some "") none none)).thumb
      = some "dir/thumb.jpg"
  ∧ (parseItemData
        (ItemData.obj (some "video") (some "dir/video.mp4") (some "") none none)).thumb
      ≠ some "" := by
  constructor
  · decide
  · decide

/-- C9 (amended): the parser maps `"foo.jpg"` to an image with that
source; `["foo.jpg"]` to the same; `{type:"video", src:"dir/video.mp4"}`
to thumbnail `dir/thumb.jpg` and preview `dir/preview.gif`;
`{type:"video", src:"dir/02.mp4"}` to `dir/02-thumb.jpg` and
`dir/02-preview.gif`; and explicitly supplied *non-empty* thumb /
preview values are never overwritten (an empty string counts as
absent, see the counterexample). -/
theorem c9_parseItemData (t p : String) (ty sr : Option String)
    (c : Option (ℚ × ℚ)) (ht : t ≠ "") (hp : p ≠ "") :
    parseItemData (ItemData.str "foo.jpg")
      = { type := "image", src := some "foo.jpg", thumb := none, preview := none,
          center := none }
  ∧ parseItemData (ItemData.arr ["foo.jpg"])
      = { type := "image", src := some "foo.jpg", thumb := none, preview := none,
          center := none }
  ∧ (parseItemData
        (ItemData.obj (some "video") (some "dir/video.mp4") none none none)).thumb
      = some "dir/thumb.jpg"
  ∧ (parseItemData
        (ItemData.obj (some "video") (some "dir/video.mp4") none none none)).preview
      = some "dir/preview.gif"
  ∧ (parseItemData
        (ItemData.obj (some "video") (some "dir/02.mp4") none none none)).thumb
      = some "dir/02-thumb.jpg"
  ∧ (parseItemData
        (ItemData.obj (some "video") (some "dir/02.mp4") none none none)).preview
      = some "dir/02-preview.gif"
  ∧ (parseItemData (ItemData.obj ty sr (some t) (some p) c)).thumb = some t
  ∧ (parseItemData (ItemData.obj ty sr (some t) (some p) c)).preview = some p := by
  refine ⟨by decide, by decide, by decide, by decide, by decide, by decide, ?_, ?_⟩
  · dsimp only [parseItemData]
    split_ifs <;> simp_all
  · dsimp only [parseItemData]
    split_ifs <;> simp_all

/-- C9 (witness): supplied non-empty thumb and preview on a video item
survive parsing. -/
theorem c9_parseItemData_witness :
    parseItemData (ItemData.str "foo.jpg")
      = { type := "image", src := some "foo.jpg", thumb := none, preview := none,
          center := none }
  ∧ parseItemData (ItemData.arr ["foo.jpg"])
      = { type := "image", src := some "foo.jpg", thumb := none, preview := none,
          center := none }
  ∧ (parseItemData
        (ItemData.obj (some "video") (some "dir/video.mp4") none none none)).thumb
      = some "dir/thumb.jpg"
  ∧ (parseItemData
        (ItemData.obj (some "video") (some "dir/video.mp4") none none none)).preview
      = some "dir/preview.gif"
  ∧ (parseItemData
        (ItemData.obj (some "video") (some "dir/02.mp4") none none none)).thumb
      = some "dir/02-thumb.jpg"
  ∧ (parseItemData
        (ItemData.obj (some "video") (some "dir/02.mp4") none none none)).preview
      = some "dir/02-preview.gif"
  ∧ (parseItemData (ItemData.obj (some "video") (some "dir/video.mp4")
        (some "custom-thumb.png") (some "custom-preview.webp") none)).thumb
      = some "custom-thumb.png"
  ∧ (parseItemData (ItemData.obj (some "video") (some "dir/video.mp4")
        (some "custom-thumb.png") (some "custom-preview.webp") none)).preview
      = some "custom-preview.webp" :=
  c9_parseItemData "custom-thumb.png" "custom-preview.webp" (some "video")
    (some "dir/video.mp4") none (by decide) (by decide)
